import Mathlib

/-!
Verification of the QuizMe repository (moaburke/QuizMe).

Shallow embedding of the core logic:
* `Question` from question_model.py,
* `QuizBrain` and its methods from quiz_brain.py,
* `fetch_question_data` from data.py, modelled as a function of the
  sequence of HTTP outcomes the remote service produces,
* the final-score line of ui.py (`get_next_question`, else branch).

Python integers are modelled as `Nat` (the counters involved never go
negative), fallible operations (out-of-range indexing, attribute access on
`None`) return `Option`, and printing / window updates are ignored except
where a claim is about the displayed text.
-/

/-- Modelled from the spec: the text-unescaping utility (Python's
`html.unescape`) is an external dependency whose source is not part of this
repository; the spec treats it as opaque and describes it as decoding HTML
entities into their literal characters (`&amp;` becomes `&`, `&#039;`
becomes the apostrophe character). This model decodes the named entities
`&amp;`, `&lt;`, `&gt;`, `&quot;` and the numeric references `&#039;` and
`&#034;`, leaving all other text unchanged. -/
def unescapeChars : List Char → List Char
  | [] => []
  | '&' :: 'a' :: 'm' :: 'p' :: ';' :: rest => '&' :: unescapeChars rest
  | '&' :: 'l' :: 't' :: ';' :: rest => '<' :: unescapeChars rest
  | '&' :: 'g' :: 't' :: ';' :: rest => '>' :: unescapeChars rest
  | '&' :: 'q' :: 'u' :: 'o' :: 't' :: ';' :: rest => Char.ofNat 34 :: unescapeChars rest
  | '&' :: '#' :: '0' :: '3' :: '9' :: ';' :: rest => Char.ofNat 39 :: unescapeChars rest
  | '&' :: '#' :: '0' :: '3' :: '4' :: ';' :: rest => Char.ofNat 34 :: unescapeChars rest
  | c :: rest => c :: unescapeChars rest

/-- `html.unescape`, lifted to `String` (see `unescapeChars`). -/
def htmlUnescape (s : String) : String :=
  String.mk (unescapeChars s.data)

/-- Modelled from the spec: Python's `str.lower` is an external stdlib
function whose source is not part of this repository; the spec only relies
on it for case-insensitive comparison of answer strings (`"True"`,
`"true"`, `"TRUE"`, `"false"`, ...). Modelled as per-character ASCII case
folding, which agrees with `str.lower` on every ASCII string. -/
def lowerChar (c : Char) : Char :=
  if 65 ≤ c.toNat ∧ c.toNat ≤ 90 then Char.ofNat (c.toNat + 32) else c

/-- `str.lower`, lifted to `String` (see `lowerChar`). -/
def pyLower (s : String) : String :=
  String.mk (s.data.map lowerChar)

/-- question_model.py, class `Question`: stores the question text and the
correct answer, set once in `__init__` and never mutated. -/
structure Question where
  text : String
  answer : String
deriving DecidableEq, Repr

/-- quiz_brain.py, class `QuizBrain`: the fields set in `__init__`.
`current_question` starts as Python `None`, hence an `Option`. -/
structure QuizBrain where
  question_number : Nat
  score : Nat
  question_list : List Question
  current_question : Option Question
  total_questions : Nat
  category : String
deriving DecidableEq, Repr

/-- `QuizBrain.__init__(q_list)`: question_number = 0, score = 0,
question_list = q_list, current_question = None, total_questions = 0,
category = "". -/
def QuizBrain.init (q_list : List Question) : QuizBrain :=
  { question_number := 0
    score := 0
    question_list := q_list
    current_question := none
    total_questions := 0
    category := "" }

/-- `QuizBrain.set_category(category)`: stores the HTML-unescaped category. -/
def QuizBrain.set_category (b : QuizBrain) (category : String) : QuizBrain :=
  { b with category := htmlUnescape category }

/-- `QuizBrain.set_total_number_of_questions(total_questions)`. -/
def QuizBrain.set_total_number_of_questions (b : QuizBrain) (total_questions : Nat) :
    QuizBrain :=
  { b with total_questions := total_questions }

/-- `QuizBrain.still_has_questions()`:
`self.question_number < len(self.question_list)`. -/
def QuizBrain.still_has_questions (b : QuizBrain) : Bool :=
  b.question_number < b.question_list.length

/-- `QuizBrain.next_question()`: reads `question_list[question_number]`
(an out-of-range index raises in Python, modelled by `none`), stores it in
`current_question`, increments `question_number`, and returns the string
`f"Q.{question_number}: {unescaped text}"` built from the incremented
number. -/
def QuizBrain.next_question (b : QuizBrain) : Option (QuizBrain × String) :=
  match b.question_list[b.question_number]? with
  | none => none
  | some q =>
    let b2 := { b with
      current_question := some q
      question_number := b.question_number + 1 }
    some (b2, "Q." ++ toString b2.question_number ++ ": " ++ htmlUnescape q.text)

/-- `QuizBrain.check_answer(user_answer)`: reads `current_question.answer`
(attribute access on Python `None` raises, modelled by `none`), compares
lower-cased strings; on a match increments `score` and returns `True`,
otherwise returns `False` with the state unchanged. -/
def QuizBrain.check_answer (b : QuizBrain) (user_answer : String) :
    Option (QuizBrain × Bool) :=
  match b.current_question with
  | none => none
  | some cq =>
    if pyLower user_answer = pyLower cq.answer then
      some ({ b with score := b.score + 1 }, true)
    else
      some (b, false)

/-- The two state-changing quiz operations the UI drives in strict
sequence: `next_question` (advance) and `check_answer`. -/
inductive QuizOp where
  | nextQuestion : QuizOp
  | checkAnswer (user_answer : String) : QuizOp
deriving DecidableEq, Repr

/-- One driver step: apply the operation, keeping the new state and
discarding the returned value. -/
def applyOp (b : QuizBrain) : QuizOp → Option QuizBrain
  | QuizOp.nextQuestion => (b.next_question).map Prod.fst
  | QuizOp.checkAnswer ans => (b.check_answer ans).map Prod.fst

/-- Run a sequence of operations, returning the final state (none if some
operation raised). -/
def runOps : QuizBrain → List QuizOp → Option QuizBrain
  | b, [] => some b
  | b, op :: ops => (applyOp b op).bind fun b2 => runOps b2 ops

/-- Run a sequence of operations, returning the list of states after each
operation (none if some operation raised). -/
def runStates : QuizBrain → List QuizOp → Option (List QuizBrain)
  | _, [] => some []
  | b, op :: ops =>
    (applyOp b op).bind fun b2 => (runStates b2 ops).map fun tr => b2 :: tr

/-- The strict calling protocol of the claims: `next_question` is called
only when `still_has_questions()` is true, `check_answer` only after a
`next_question` that has not yet been followed by a `check_answer`
(`canCheck` is true exactly then), and each step must succeed. -/
def validRun (b : QuizBrain) (canCheck : Bool) : List QuizOp → Bool
  | [] => true
  | QuizOp.nextQuestion :: ops =>
    match b.next_question with
    | some (b2, _) => b.still_has_questions && validRun b2 true ops
    | none => false
  | QuizOp.checkAnswer ans :: ops =>
    match b.check_answer ans with
    | some (b2, _) => canCheck && validRun b2 false ops
    | none => false

/-- ui.py, `QuizInterface.get_next_question`, else branch: the text put on
the canvas when no questions remain,
`f"Total Score: {self.quiz.score}/{self.quiz.question_number}"`. -/
def finalScreenText (b : QuizBrain) : String :=
  "Total Score: " ++ toString b.score ++ "/" ++ toString b.question_number

/-- data.py §6: one raw question record of the service's `results` list. -/
structure RawQuestion where
  category : String
  question : String
  correct_answer : String
deriving DecidableEq, Repr

/-- The outcome of one HTTP GET issued by `fetch_question_data`:
either `raise_for_status` passes and a JSON body with `response_code` and
`results` is parsed, or `raise_for_status` raises `HTTPError` with the
given status code. -/
inductive HttpOutcome where
  | success (response_code : Nat) (results : List RawQuestion) : HttpOutcome
  | httpError (status_code : Nat) : HttpOutcome
deriving DecidableEq, Repr

/-- How a (finite prefix of a) run of `fetch_question_data` ends: either
the Python function returned (`some results` or `None`), or the supplied
outcome trace was exhausted while the retry loop was still running with
the given remaining amount. -/
inductive FetchResult where
  | returned (r : Option (List RawQuestion)) : FetchResult
  | outOfResponses (remaining : Nat) : FetchResult
deriving DecidableEq, Repr

/-- A run of `fetch_question_data`: its result, the `amount` parameter of
each request it issued and got an outcome for, in order, and the duration
in seconds of each `time.sleep` it performed, in order. -/
structure FetchRun where
  result : FetchResult
  requests : List Nat
  sleeps : List Nat
deriving DecidableEq, Repr

/-- data.py, `fetch_question_data`, driven by the trace `responses` of HTTP
outcomes: while `number_of_questions > 0`, issue a request; on a
successful response with `response_code == 0` return the results; on any
other successful response decrement the amount and loop; on an `HTTPError`
with status 429 sleep 2 seconds and loop with the same amount; on any
other `HTTPError` break. After the loop, return `None`. (The
`valid_param` flag in the source is never set to true, so the loop
condition reduces to `number_of_questions > 0`.) -/
def fetch_question_data : Nat → List HttpOutcome → FetchRun
  | 0, _ => { result := FetchResult.returned none, requests := [], sleeps := [] }
  | n + 1, [] => { result := FetchResult.outOfResponses (n + 1), requests := [], sleeps := [] }
  | n + 1, HttpOutcome.success code results :: rest =>
    if code = 0 then
      { result := FetchResult.returned (some results), requests := [n + 1], sleeps := [] }
    else
      let r := fetch_question_data n rest
      { result := r.result, requests := (n + 1) :: r.requests, sleeps := r.sleeps }
  | n + 1, HttpOutcome.httpError status :: rest =>
    if status = 429 then
      let r := fetch_question_data (n + 1) rest
      { result := r.result, requests := (n + 1) :: r.requests, sleeps := 2 :: r.sleeps }
    else
      { result := FetchResult.returned none, requests := [n + 1], sleeps := [] }
termination_by _ responses => responses.length

/-- The list `[n, n-1, ..., 1]` of amounts tried by a fully degrading
fetch. -/
def countdown : Nat → List Nat
  | 0 => []
  | n + 1 => (n + 1) :: countdown n

/-- An HTTP-successful outcome whose body carries a nonzero
`response_code`. -/
def isInvalidSuccess : HttpOutcome → Bool
  | HttpOutcome.success code _ => code != 0
  | HttpOutcome.httpError _ => false

theorem countdown_length (n : Nat) : (countdown n).length = n := by
  induction n with
  | zero => rfl
  | succ k ih => simp [countdown, ih]

theorem fetch_all_invalid_aux (responses : List HttpOutcome)
    (hall : ∀ r ∈ responses, isInvalidSuccess r = true) :
    fetch_question_data responses.length responses =
      { result := FetchResult.returned none
        requests := countdown responses.length
        sleeps := [] } := by
  induction responses with
  | nil => simp [fetch_question_data, countdown]
  | cons r rest ih =>
    have hr : isInvalidSuccess r = true := hall r (List.mem_cons_self r rest)
    cases r with
    | httpError s => simp [isInvalidSuccess] at hr
    | success code results =>
      have hcode : code ≠ 0 := by
        simpa [isInvalidSuccess] using hr
      have ihrest := ih fun x hx => hall x (List.mem_cons_of_mem _ hx)
      simp [fetch_question_data, hcode, ihrest, countdown]

/-- C5: as soon as `fetch_question_data` receives an HTTP-successful
response whose body has `response_code == 0`, it returns that response's
results list and issues no further requests; in particular, for the
response sequence invalid, invalid, valid(3 results) starting from
count 5, it returns the 3-question result set with requests of amounts
5, 4, 3 and no retry beyond the success. -/
theorem fetch_returns_on_first_valid :
    (∀ (count : Nat) (results : List RawQuestion) (rest : List HttpOutcome),
      0 < count →
      fetch_question_data count (HttpOutcome.success 0 results :: rest) =
        { result := FetchResult.returned (some results)
          requests := [count]
          sleeps := [] }) ∧
    (∀ (c1 c2 : Nat) (r1 r2 : List RawQuestion) (q1 q2 q3 : RawQuestion)
        (rest : List HttpOutcome), c1 ≠ 0 → c2 ≠ 0 →
      fetch_question_data 5
          (HttpOutcome.success c1 r1 :: HttpOutcome.success c2 r2 ::
            HttpOutcome.success 0 [q1, q2, q3] :: rest) =
        { result := FetchResult.returned (some [q1, q2, q3])
          requests := [5, 4, 3]
          sleeps := [] }) := by
  constructor
  · intro count results rest hpos
    match count, hpos with
    | n + 1, _ => simp [fetch_question_data]
  · intro c1 c2 r1 r2 q1 q2 q3 rest h1 h2
    simp [fetch_question_data, h1, h2]

theorem fetch_returns_on_first_valid_witness :
    fetch_question_data 5
        (HttpOutcome.success 1 [] :: HttpOutcome.success 1 [] ::
          HttpOutcome.success 0
            [{ category := "c", question := "a", correct_answer := "True" },
             { category := "c", question := "b", correct_answer := "False" },
             { category := "c", question := "c", correct_answer := "True" }] :: []) =
      { result := FetchResult.returned
          (some [{ category := "c", question := "a", correct_answer := "True" },
                 { category := "c", question := "b", correct_answer := "False" },
                 { category := "c", question := "c", correct_answer := "True" }])
        requests := [5, 4, 3]
        sleeps := [] } :=
  fetch_returns_on_first_valid.2 1 1 [] [] _ _ _ [] (by decide) (by decide)

/-- C6: if every request yields an HTTP-successful response with a nonzero
response_code, `fetch_question_data` decrements the amount by exactly 1
each time, issuing requests with amounts count, count-1, ..., 1, and
terminates after exactly count attempts returning `None` once the amount
reaches 0. -/
theorem fetch_all_invalid_countdown (count : Nat) (responses : List HttpOutcome)
    (hpos : 0 < count) (hlen : responses.length = count)
    (hall : ∀ r ∈ responses, isInvalidSuccess r = true) :
    fetch_question_data count responses =
      { result := FetchResult.returned none
        requests := countdown count
        sleeps := [] } ∧
    (countdown count).length = count := by
  subst hlen
  exact ⟨fetch_all_invalid_aux responses hall, countdown_length _⟩

theorem fetch_all_invalid_countdown_witness :
    fetch_question_data 2 [HttpOutcome.success 1 [], HttpOutcome.success 2 []] =
      { result := FetchResult.returned none
        requests := countdown 2
        sleeps := [] } ∧
    (countdown 2).length = 2 :=
  fetch_all_invalid_countdown 2 [HttpOutcome.success 1 [], HttpOutcome.success 2 []]
    (by decide) (by decide) (by decide)

/-- C7: on a transport error other than rate limiting (an `HTTPError` whose
status is not 429), `fetch_question_data` aborts at once and returns
`None` — one request issued, no retry, no sleep; the absence of a result
is the return value, not an exception. -/
theorem fetch_other_error_aborts (count status : Nat) (rest : List HttpOutcome)
    (hpos : 0 < count) (hstatus : status ≠ 429) :
    fetch_question_data count (HttpOutcome.httpError status :: rest) =
      { result := FetchResult.returned none
        requests := [count]
        sleeps := [] } := by
  match count, hpos with
  | n + 1, _ => simp [fetch_question_data, hstatus]

theorem fetch_other_error_aborts_witness :
    fetch_question_data 5 [HttpOutcome.httpError 500] =
      { result := FetchResult.returned none
        requests := [5]
        sleeps := [] } :=
  fetch_other_error_aborts 5 500 [] (by decide) (by decide)

/-- C8: on a rate-limit transport error (HTTP 429), `fetch_question_data`
sleeps exactly 2 seconds and retries with the same, undecremented amount;
such retries are unbounded: after any finite number n of consecutive 429
outcomes the loop is still running with the original amount, having issued
n same-amount requests and slept 2 seconds before each retry. -/
theorem fetch_rate_limited_retries (count : Nat) (hpos : 0 < count) :
    (∀ rest : List HttpOutcome,
      fetch_question_data count (HttpOutcome.httpError 429 :: rest) =
        { result := (fetch_question_data count rest).result
          requests := count :: (fetch_question_data count rest).requests
          sleeps := 2 :: (fetch_question_data count rest).sleeps }) ∧
    (∀ n : Nat,
      fetch_question_data count (List.replicate n (HttpOutcome.httpError 429)) =
        { result := FetchResult.outOfResponses count
          requests := List.replicate n count
          sleeps := List.replicate n 2 }) := by
  constructor
  · intro rest
    match count, hpos with
    | m + 1, _ => simp [fetch_question_data]
  · intro n
    induction n with
    | zero =>
      match count, hpos with
      | m + 1, _ => simp [fetch_question_data]
    | succ k ih =>
      match count, hpos with
      | m + 1, _ =>
        simp [fetch_question_data, List.replicate_succ, ih]

theorem fetch_rate_limited_retries_witness :
    (fetch_question_data 3 [HttpOutcome.httpError 429] =
      { result := (fetch_question_data 3 []).result
        requests := 3 :: (fetch_question_data 3 []).requests
        sleeps := 2 :: (fetch_question_data 3 []).sleeps }) ∧
    (fetch_question_data 3 (List.replicate 4 (HttpOutcome.httpError 429)) =
      { result := FetchResult.outOfResponses 3
        requests := List.replicate 4 3
        sleeps := List.replicate 4 2 }) :=
  ⟨(fetch_rate_limited_retries 3 (by decide)).1 [],
   (fetch_rate_limited_retries 3 (by decide)).2 4⟩

theorem next_question_none (b : QuizBrain)
    (h : b.question_list[b.question_number]? = none) :
    b.next_question = none := by
  unfold QuizBrain.next_question
  rw [h]

theorem next_question_some (b : QuizBrain) (q : Question)
    (h : b.question_list[b.question_number]? = some q) :
    b.next_question = some
      ({ b with current_question := some q, question_number := b.question_number + 1 },
        "Q." ++ toString (b.question_number + 1) ++ ": " ++ htmlUnescape q.text) := by
  unfold QuizBrain.next_question
  rw [h]

theorem check_answer_none (b : QuizBrain) (ans : String)
    (h : b.current_question = none) :
    b.check_answer ans = none := by
  unfold QuizBrain.check_answer
  rw [h]

theorem check_answer_some (b : QuizBrain) (cq : Question) (ans : String)
    (h : b.current_question = some cq) :
    b.check_answer ans =
      if pyLower ans = pyLower cq.answer then
        some ({ b with score := b.score + 1 }, true)
      else
        some (b, false) := by
  unfold QuizBrain.check_answer
  rw [h]

theorem check_answer_cases (b : QuizBrain) (ans : String) (b2 : QuizBrain) (res : Bool)
    (h : b.check_answer ans = some (b2, res)) :
    ∃ cq, b.current_question = some cq ∧
      ((res = true ∧ pyLower ans = pyLower cq.answer ∧
          b2 = { b with score := b.score + 1 }) ∨
        (res = false ∧ pyLower ans ≠ pyLower cq.answer ∧ b2 = b)) := by
  cases hcq : b.current_question with
  | none => rw [check_answer_none b ans hcq] at h; cases h
  | some cq =>
    rw [check_answer_some b cq ans hcq, hcq] at h
    by_cases hans : pyLower ans = pyLower cq.answer
    · rw [if_pos hans] at h
      simp only [Option.some.injEq, Prod.mk.injEq] at h
      exact ⟨cq, rfl, Or.inl ⟨h.2.symm, hans, h.1.symm⟩⟩
    · rw [if_neg hans] at h
      simp only [Option.some.injEq, Prod.mk.injEq] at h
      exact ⟨cq, rfl, Or.inr ⟨h.2.symm, hans, h.1.symm⟩⟩

theorem validRun_inv (ops : List QuizOp) : ∀ (b : QuizBrain) (canCheck : Bool),
    validRun b canCheck ops = true →
    b.score ≤ b.question_number →
    b.question_number ≤ b.question_list.length →
    (canCheck = true → b.score < b.question_number) →
    ∃ tr, runStates b ops = some tr ∧
      (∀ s ∈ tr, s.score ≤ s.question_number ∧
        s.question_number ≤ s.question_list.length) ∧
      List.Chain' (fun x y => x.question_number ≤ y.question_number) (b :: tr) := by
  induction ops with
  | nil =>
    intro b canCheck _ h1 h2 _
    exact ⟨[], rfl, by simp, by simp⟩
  | cons op ops ih =>
    intro b canCheck hv h1 h2 h3
    cases op with
    | nextQuestion =>
      cases hidx : b.question_list[b.question_number]? with
      | none => simp [validRun, next_question_none b hidx] at hv
      | some q =>
        have hnq := next_question_some b q hidx
        rw [validRun, hnq] at hv
        simp only [Bool.and_eq_true] at hv
        obtain ⟨hstill, hvr⟩ := hv
        have hlt : b.question_number < b.question_list.length := by
          simpa [QuizBrain.still_has_questions] using hstill
        obtain ⟨tr, htr, hinv, hchain⟩ := ih _ true hvr (by simpa using Nat.le_succ_of_le h1)
          (by simpa using hlt) (fun _ => by simpa using Nat.lt_succ_of_le h1)
        refine ⟨{ b with current_question := some q, question_number := b.question_number + 1 } :: tr, ?_, ?_, ?_⟩
        · simp [runStates, applyOp, hnq, htr]
        · intro s hs
          rcases List.mem_cons.1 hs with rfl | hs
          · exact ⟨Nat.le_succ_of_le h1, by simpa using hlt⟩
          · exact hinv s hs
        · exact List.chain'_cons.2 ⟨by simp, hchain⟩
    | checkAnswer ans =>
      cases hca : b.check_answer ans with
      | none => simp [validRun, hca] at hv
      | some p =>
        obtain ⟨b2, res⟩ := p
        rw [validRun, hca] at hv
        simp only [Bool.and_eq_true] at hv
        obtain ⟨hcanCheck, hvr⟩ := hv
        have hscore : b.score < b.question_number := h3 hcanCheck
        obtain ⟨cq, hcq, hcases⟩ := check_answer_cases b ans b2 res hca
        have hfacts : b2.score ≤ b.score + 1 ∧ b2.question_number = b.question_number ∧
            b2.question_list = b.question_list := by
          rcases hcases with ⟨_, _, rfl⟩ | ⟨_, _, rfl⟩
          · exact ⟨Nat.le_refl _, rfl, rfl⟩
          · exact ⟨Nat.le_succ _, rfl, rfl⟩
        obtain ⟨hb2s, hb2n, hb2l⟩ := hfacts
        obtain ⟨tr, htr, hinv, hchain⟩ := ih b2 false hvr
          (by rw [hb2n]; exact Nat.le_trans hb2s hscore)
          (by rw [hb2n, hb2l]; exact h2)
          (fun hfalse => by cases hfalse)
        refine ⟨b2 :: tr, ?_, ?_, ?_⟩
        · simp [runStates, applyOp, hca, htr]
        · intro s hs
          rcases List.mem_cons.1 hs with rfl | hs
          · exact ⟨by rw [hb2n]; exact Nat.le_trans hb2s hscore, by rw [hb2n, hb2l]; exact h2⟩
          · exact hinv s hs
        · exact List.chain'_cons.2 ⟨by rw [hb2n], hchain⟩

/-- C1: driving a `QuizBrain` from its initial state by any strict
sequence of operations — every `next_question` called only when
`still_has_questions()` is true, every `check_answer` preceded by a
`next_question` with at most one `check_answer` per `next_question` — the
run succeeds and the invariant holds at all times: `score ≤
question_number`, `question_number ≤ len(question_list)` at every reached
state, and `question_number` never decreases along the trace. -/
theorem quiz_brain_invariant (qs : List Question) (ops : List QuizOp)
    (hv : validRun (QuizBrain.init qs) false ops = true) :
    ∃ tr, runStates (QuizBrain.init qs) ops = some tr ∧
      (∀ s ∈ tr, s.score ≤ s.question_number ∧
        s.question_number ≤ s.question_list.length) ∧
      List.Chain' (fun x y => x.question_number ≤ y.question_number)
        (QuizBrain.init qs :: tr) :=
  validRun_inv ops (QuizBrain.init qs) false hv (Nat.le_refl 0) (Nat.zero_le _)
    (fun hfalse => by cases hfalse)

/-- The current-question field after `k` successful `next_question` calls
from the initial state: `None` before the first call, `questions[k-1]`
afterwards. -/
def currentAfter (qs : List Question) (k : Nat) : Option Question :=
  if k = 0 then none else qs[k - 1]?

/-- The `QuizBrain` state reached from `QuizBrain.init qs` by `k`
successful `next_question` calls. -/
def stateAfter (qs : List Question) (k : Nat) : QuizBrain :=
  { question_number := k
    score := 0
    question_list := qs
    current_question := currentAfter qs k
    total_questions := 0
    category := "" }

theorem stateAfter_zero (qs : List Question) : stateAfter qs 0 = QuizBrain.init qs := by
  simp [stateAfter, currentAfter, QuizBrain.init]

theorem next_question_stateAfter (qs : List Question) (j : Nat) (hj : j < qs.length) :
    (stateAfter qs j).next_question =
      some (stateAfter qs (j + 1),
        "Q." ++ toString (j + 1) ++ ": " ++ htmlUnescape (qs.get ⟨j, hj⟩).text) := by
  have hq : qs[j]? = some (qs.get ⟨j, hj⟩) := by
    simp [List.getElem?_eq_getElem hj]
  rw [next_question_some (stateAfter qs j) (qs.get ⟨j, hj⟩)
    (by simp [stateAfter, hq])]
  simp [stateAfter, currentAfter, hq]

theorem runOps_replicate_next (qs : List Question) : ∀ (k j : Nat),
    j + k ≤ qs.length →
    runOps (stateAfter qs j) (List.replicate k QuizOp.nextQuestion) =
      some (stateAfter qs (j + k)) := by
  intro k
  induction k with
  | zero => intro j _; simp [runOps]
  | succ m ihm =>
    intro j h
    have hj : j < qs.length := by omega
    have ih := ihm (j + 1) (by omega)
    rw [show j + (m + 1) = j + 1 + m by omega]
    rw [List.replicate_succ, runOps]
    simp only [applyOp, next_question_stateAfter qs j hj, Option.map_some', Option.some_bind]
    exact ih

theorem runOps_append (l1 l2 : List QuizOp) : ∀ b : QuizBrain,
    runOps b (l1 ++ l2) = (runOps b l1).bind fun b2 => runOps b2 l2 := by
  induction l1 with
  | nil => intro b; simp [runOps]
  | cons op l ih =>
    intro b
    rw [List.cons_append, runOps, runOps]
    cases applyOp b op with
    | none => simp
    | some b2 => simp [ih]

/-- C2: in every state reached after at least one `next_question` call —
that is, every state whose `current_question` holds a question —
`check_answer(user_answer)` compares `user_answer` to the stored answer
case-insensitively; on a match it increments `score` by exactly 1 and
returns true, otherwise it returns false and leaves the state unchanged;
in particular a stored answer "True" matches inputs "true" and "TRUE" but
not "false". -/
theorem check_answer_case_insensitive (b : QuizBrain) (q : Question) (ans : String)
    (h : b.current_question = some q) :
    (b.check_answer ans =
      if pyLower ans = pyLower q.answer then
        some ({ b with score := b.score + 1 }, true)
      else
        some (b, false)) ∧
    (q.answer = "True" →
      b.check_answer "true" = some ({ b with score := b.score + 1 }, true) ∧
      b.check_answer "TRUE" = some ({ b with score := b.score + 1 }, true) ∧
      b.check_answer "false" = some (b, false)) := by
  refine ⟨check_answer_some b q ans h, fun hq => ⟨?_, ?_, ?_⟩⟩
  · rw [check_answer_some b q "true" h, hq, if_pos (by decide)]
  · rw [check_answer_some b q "TRUE" h, hq, if_pos (by decide)]
  · rw [check_answer_some b q "false" h, hq, if_neg (by decide)]

theorem check_answer_case_insensitive_witness :
    QuizBrain.check_answer
        { question_number := 1, score := 0
          question_list := [{ text := "t", answer := "True" }]
          current_question := some { text := "t", answer := "True" }
          total_questions := 0, category := "" } "TRUE" =
      some ({ question_number := 1, score := 1
              question_list := [{ text := "t", answer := "True" }]
              current_question := some { text := "t", answer := "True" }
              total_questions := 0, category := "" }, true) :=
  ((check_answer_case_insensitive _ { text := "t", answer := "True" } "TRUE" rfl).2 rfl).2.1

/-- C3: `still_has_questions()` returns true iff `question_number <
len(question_list)`; for a non-empty question list, advancing from the
initial state whenever `still_has_questions()` is true makes it true at
each of the states after 0, 1, ..., len-1 advances (len times), false at
the state after len advances, and a further advance is impossible. -/
theorem still_has_questions_spec (qs : List Question) (k : Nat) (_hne : qs ≠ [])
    (hk : k ≤ qs.length) :
    (∀ b : QuizBrain,
      b.still_has_questions = decide (b.question_number < b.question_list.length)) ∧
    (∃ bk, runOps (QuizBrain.init qs) (List.replicate k QuizOp.nextQuestion) = some bk ∧
      (bk.still_has_questions = true ↔ k < qs.length)) ∧
    runOps (QuizBrain.init qs) (List.replicate (qs.length + 1) QuizOp.nextQuestion) =
      none := by
  refine ⟨fun _ => rfl, ⟨stateAfter qs k, ?_, ?_⟩, ?_⟩
  · have := runOps_replicate_next qs k 0 (by omega)
    rwa [stateAfter_zero, Nat.zero_add] at this
  · simp [stateAfter, QuizBrain.still_has_questions]
  · have hsplit : List.replicate (qs.length + 1) QuizOp.nextQuestion =
        List.replicate qs.length QuizOp.nextQuestion ++ [QuizOp.nextQuestion] := by
      rw [← List.replicate_succ']
    have hrun := runOps_replicate_next qs qs.length 0 (by omega)
    rw [stateAfter_zero, Nat.zero_add] at hrun
    have hnone : (stateAfter qs qs.length).next_question = none := by
      apply next_question_none
      simp [stateAfter]
    rw [hsplit, runOps_append, hrun]
    simp [runOps, applyOp, hnone]

theorem still_has_questions_spec_witness :
    (∀ b : QuizBrain,
      b.still_has_questions = decide (b.question_number < b.question_list.length)) ∧
    (∃ bk, runOps (QuizBrain.init [{ text := "a", answer := "True" },
          { text := "b", answer := "False" }])
        (List.replicate 2 QuizOp.nextQuestion) = some bk ∧
      (bk.still_has_questions = true ↔ 2 < (2 : Nat))) ∧
    runOps (QuizBrain.init [{ text := "a", answer := "True" },
        { text := "b", answer := "False" }])
      (List.replicate 3 QuizOp.nextQuestion) = none :=
  still_has_questions_spec [{ text := "a", answer := "True" },
    { text := "b", answer := "False" }] 2 (by decide) (by decide)

/-- C4: for 1 ≤ N ≤ len(question_list), the Nth `next_question` call —
the preceding N-1 calls all made with `still_has_questions()` true — sets
`current_question` to the Nth question of the original fetch order and
returns the string made of the 1-based display index N and that question's
text with HTML entities decoded (`&amp;` to `&`, `&#039;` to the
apostrophe character). -/
theorem next_question_nth (qs : List Question) (N : Nat) (h1 : 1 ≤ N)
    (h2 : N ≤ qs.length) :
    ∃ (b b2 : QuizBrain) (q : Question),
      runOps (QuizBrain.init qs) (List.replicate (N - 1) QuizOp.nextQuestion) = some b ∧
      b.still_has_questions = true ∧
      qs[N - 1]? = some q ∧
      b.next_question = some (b2, "Q." ++ toString N ++ ": " ++ htmlUnescape q.text) ∧
      b2.current_question = some q ∧
      b2.question_number = N ∧
      htmlUnescape "&amp;" = "&" ∧
      htmlUnescape "&#039;" = String.mk [Char.ofNat 39] := by
  have hN1 : N - 1 < qs.length := by omega
  have hrun := runOps_replicate_next qs (N - 1) 0 (by omega)
  rw [stateAfter_zero, Nat.zero_add] at hrun
  have hnext := next_question_stateAfter qs (N - 1) hN1
  rw [show N - 1 + 1 = N by omega] at hnext
  refine ⟨stateAfter qs (N - 1), stateAfter qs N, qs.get ⟨N - 1, hN1⟩, hrun, ?_, ?_,
    hnext, ?_, rfl, by decide, by decide⟩
  · simp [stateAfter, QuizBrain.still_has_questions]
    omega
  · simp [List.getElem?_eq_getElem hN1]
  · simp [stateAfter, currentAfter, List.getElem?_eq_getElem hN1]
    omega

theorem next_question_nth_witness :
    ∃ (b b2 : QuizBrain) (q : Question),
      runOps (QuizBrain.init [{ text := "A &amp; B", answer := "True" }])
          (List.replicate 0 QuizOp.nextQuestion) = some b ∧
      b.still_has_questions = true ∧
      ([{ text := "A &amp; B", answer := "True" }] : List Question)[0]? = some q ∧
      b.next_question = some (b2, "Q." ++ toString 1 ++ ": " ++ htmlUnescape q.text) ∧
      b2.current_question = some q ∧
      b2.question_number = 1 ∧
      htmlUnescape "&amp;" = "&" ∧
      htmlUnescape "&#039;" = String.mk [Char.ofNat 39] :=
  next_question_nth [{ text := "A &amp; B", answer := "True" }] 1 (by decide) (by decide)

theorem quiz_brain_invariant_witness :
    validRun (QuizBrain.init [{ text := "a", answer := "True" },
        { text := "b", answer := "False" }]) false
      [QuizOp.nextQuestion, QuizOp.checkAnswer "true", QuizOp.nextQuestion,
        QuizOp.checkAnswer "false"] = true ∧
    (∃ tr, runStates (QuizBrain.init [{ text := "a", answer := "True" },
          { text := "b", answer := "False" }])
        [QuizOp.nextQuestion, QuizOp.checkAnswer "true", QuizOp.nextQuestion,
          QuizOp.checkAnswer "false"] = some tr ∧
      (∀ s ∈ tr, s.score ≤ s.question_number ∧
        s.question_number ≤ s.question_list.length) ∧
      List.Chain' (fun x y => x.question_number ≤ y.question_number)
        (QuizBrain.init [{ text := "a", answer := "True" },
          { text := "b", answer := "False" }] :: tr)) :=
  ⟨by decide, quiz_brain_invariant _ _ (by decide)⟩

/-- C9: for a quiz of exactly 3 questions with ground-truth answers
["True", "False", "False"], the full strict run with user answers
["true", "false", "true"] ends with score 2, no questions remaining, and
the final screen showing the ratio "2/3" (Total Score: 2/3). -/
theorem end_to_end_three_questions (t1 t2 t3 : String) :
    ∃ bf, runOps (QuizBrain.init [{ text := t1, answer := "True" },
          { text := t2, answer := "False" }, { text := t3, answer := "False" }])
        [QuizOp.nextQuestion, QuizOp.checkAnswer "true", QuizOp.nextQuestion,
          QuizOp.checkAnswer "false", QuizOp.nextQuestion, QuizOp.checkAnswer "true"] =
        some bf ∧
      bf.score = 2 ∧
      bf.still_has_questions = false ∧
      finalScreenText bf = "Total Score: 2/3" := by
  refine ⟨{ question_number := 3, score := 2
            question_list := [{ text := t1, answer := "True" },
              { text := t2, answer := "False" }, { text := t3, answer := "False" }]
            current_question := some { text := t3, answer := "False" }
            total_questions := 0, category := "" }, ?_, rfl, rfl, ?_⟩
  · rfl
  · simp only [finalScreenText]
    decide

/-- C10: frame conditions: `check_answer` changes only `score`;
`next_question` changes only `question_number` and `current_question`;
`set_category` changes only `category`; `set_total_number_of_questions`
changes only `total_questions`; and no operation modifies the question
list (a `Question`, once constructed, is an immutable value). -/
theorem quiz_brain_frame :
    (∀ (b b2 : QuizBrain) (ans : String) (res : Bool),
      b.check_answer ans = some (b2, res) →
      b2.question_number = b.question_number ∧
      b2.question_list = b.question_list ∧
      b2.current_question = b.current_question ∧
      b2.total_questions = b.total_questions ∧
      b2.category = b.category) ∧
    (∀ (b b2 : QuizBrain) (s : String),
      b.next_question = some (b2, s) →
      b2.score = b.score ∧
      b2.question_list = b.question_list ∧
      b2.total_questions = b.total_questions ∧
      b2.category = b.category) ∧
    (∀ (b : QuizBrain) (c : String),
      (b.set_category c).question_number = b.question_number ∧
      (b.set_category c).score = b.score ∧
      (b.set_category c).question_list = b.question_list ∧
      (b.set_category c).current_question = b.current_question ∧
      (b.set_category c).total_questions = b.total_questions) ∧
    (∀ (b : QuizBrain) (n : Nat),
      (b.set_total_number_of_questions n).question_number = b.question_number ∧
      (b.set_total_number_of_questions n).score = b.score ∧
      (b.set_total_number_of_questions n).question_list = b.question_list ∧
      (b.set_total_number_of_questions n).current_question = b.current_question ∧
      (b.set_total_number_of_questions n).category = b.category) := by
  refine ⟨?_, ?_, ?_, ?_⟩
  · intro b b2 ans res h
    obtain ⟨cq, hcq, hcases⟩ := check_answer_cases b ans b2 res h
    rcases hcases with ⟨_, _, rfl⟩ | ⟨_, _, rfl⟩ <;>
      exact ⟨rfl, rfl, rfl, rfl, rfl⟩
  · intro b b2 s h
    cases hidx : b.question_list[b.question_number]? with
    | none => rw [next_question_none b hidx] at h; cases h
    | some q =>
      rw [next_question_some b q hidx] at h
      simp only [Option.some.injEq, Prod.mk.injEq] at h
      obtain ⟨rfl, -⟩ := h
      exact ⟨rfl, rfl, rfl, rfl⟩
  · intro b c
    exact ⟨rfl, rfl, rfl, rfl, rfl⟩
  · intro b n
    exact ⟨rfl, rfl, rfl, rfl, rfl⟩

theorem quiz_brain_frame_witness :
    (QuizBrain.mk 0 1 [{ text := "t", answer := "True" }]
        (some { text := "t", answer := "True" }) 0 "").question_number =
      (QuizBrain.mk 0 0 [{ text := "t", answer := "True" }]
        (some { text := "t", answer := "True" }) 0 "").question_number :=
  (quiz_brain_frame.1
    (QuizBrain.mk 0 0 [{ text := "t", answer := "True" }]
      (some { text := "t", answer := "True" }) 0 "")
    (QuizBrain.mk 0 1 [{ text := "t", answer := "True" }]
      (some { text := "t", answer := "True" }) 0 "")
    "true" true (by decide)).1
